import Mathlib

/-
Verification of the spinlock core of Gumbo-OS (src/src/spinlock.rs).

Shallow embedding:
- `SpinLock T` mirrors the Rust struct `SpinLock<T>` with `flag : AtomicBool`
  modelled as `Bool` (false = Unlocked, true = Locked) and
  `data : UnsafeCell<T>` modelled as a plain `T`.
- Atomic memory orderings are carried as explicit data (`MemOrder`), copied
  from the `Ordering::...` arguments at each call site.
- The protocol of one lock instance under any number of interleaved contexts
  is a step relation `Step` on `SysState`, whose events are exactly the atomic
  accesses of `acquire` (line 58 compare_exchange, line 59 load) and the
  release store (line 68) performed by `Drop for SpinLockGuard` (lines 87-91),
  instrumented with a ghost counter of live `SpinLockGuard` values.
- The control flow of `acquire` inside one context is the small-step function
  `acquireStep` over the two control points of the loop nest of lines 58-62.
-/

/-- The memory orderings of `core::sync::atomic::Ordering`. -/
inductive MemOrder
  | relaxed
  | acqOrd
  | relOrd
  | acqRelOrd
  | seqCst
deriving DecidableEq, Repr

/-- `SpinLock<T>` (spinlock.rs lines 31-35): an atomic boolean flag plus the
protected value stored in an `UnsafeCell`.  `false` is Unlocked, `true` is
Locked. -/
structure SpinLock (T : Type) where
  flag : Bool
  data : T
deriving DecidableEq, Repr

variable {T : Type}

/-- `SpinLock::new` (lines 44-55): the flag starts Unlocked (`false`) and
`item` is stored as the sole owned payload; the constructor is total. -/
def SpinLock.new (item : T) : SpinLock T :=
  { flag := false, data := item }

/-- `SpinLock::release` (lines 67-69): unconditionally store `false` into the
flag; the data cell is untouched. -/
def SpinLock.release (l : SpinLock T) : SpinLock T :=
  { flag := false, data := l.data }

/-- Ordering of the store in `SpinLock::release` (line 68): `Ordering::Release`. -/
def releaseStoreOrder : MemOrder := .relOrd

/-- Ordering of the successful `compare_exchange` in `acquire` (line 58):
`Ordering::Acquire`. -/
def casSuccessOrder : MemOrder := .acqOrd

/-- Ordering of the failed `compare_exchange` in `acquire` (line 58):
`Ordering::Relaxed`. -/
def casFailureOrder : MemOrder := .relaxed

/-- Ordering of the load in the inner spin loop (line 59): `Ordering::Relaxed`. -/
def spinLoadOrder : MemOrder := .relaxed

/-- `acquire` executes `hint::spin_loop()` on every iteration of the inner
read-only loop (line 60). -/
def spinLoopHint : Bool := true

/-- Rust item visibilities, as written in the source. -/
inductive RustVis
  | visPub
  | visPrivate
deriving DecidableEq, Repr

/-- Visibility of `SpinLock::release` in the source: it is declared
`pub fn release` (line 67), so it is callable from outside the module. -/
def releaseVisInSource : RustVis := .visPub

/-- `Deref for SpinLockGuard` (lines 74-79): reading through the guard
returns the value in its lock's data cell. -/
def SpinLockGuard.deref (l : SpinLock T) : T := l.data

/-- `DerefMut for SpinLockGuard` (lines 81-85): writing `v` through the
guard's mutable dereference stores `v` into its lock's data cell; the flag is
untouched. -/
def SpinLockGuard.derefMutWrite (l : SpinLock T) (v : T) : SpinLock T :=
  { flag := l.flag, data := v }

/-- The lock operations performed by a guard's teardown. -/
inductive LockOp
  | callRelease
deriving DecidableEq, Repr

/-- Body of `Drop for SpinLockGuard` (lines 87-91): exactly one call to
`SpinLock::release` on the guard's lock. -/
def dropBody : List LockOp := [LockOp.callRelease]

/-- Control points of one context inside `SpinLock::acquire` (lines 57-65):
either about to run the `compare_exchange` of line 58, or inside the
read-only spin of lines 59-61. -/
inductive AcquirePC
  | tryCAS
  | spinRead
deriving DecidableEq, Repr

/-- Outcome of one atomic access performed by `acquire`: the guard is
returned, or the context continues at some control point. -/
inductive AcqResult
  | acquired
  | continueAt (pc : AcquirePC)
deriving DecidableEq, Repr

/-- One atomic access of `SpinLock::acquire`, as a function of the flag value
the access observes.  At `tryCAS` the `compare_exchange` of line 58 succeeds
exactly when the flag is `false` and the context returns a guard (line 64);
on failure it enters the inner loop.  At `spinRead` the relaxed load of line
59 keeps spinning (with the `spin_loop` hint of line 60) while the flag reads
`true`, and exits back to the `compare_exchange` when it reads `false`. -/
def acquireStep (pc : AcquirePC) (flag : Bool) : AcqResult :=
  match pc with
  | .tryCAS => if flag then .continueAt .spinRead else .acquired
  | .spinRead => if flag then .continueAt .spinRead else .continueAt .tryCAS

/-- Status of a context running `acquire`: still running at a control point,
or finished with a guard. -/
inductive AcqRun
  | running (pc : AcquirePC)
  | got
deriving DecidableEq, Repr

/-- Run one context's `acquire` against the sequence of flag values its
successive atomic accesses observe. -/
def acquireRun (pc : AcquirePC) : List Bool → AcqRun
  | [] => .running pc
  | f :: rest =>
    match acquireStep pc f with
    | .acquired => .got
    | .continueAt q => acquireRun q rest

/-- The acquire algorithm exactly as the spec words it (steps 1-3 of the
test-and-test-and-set description): attempt a compare-and-swap of the flag
from Unlocked to Locked, return a Guard on success; on failure repeatedly
load the flag until it reads Unlocked, then retry the compare-and-swap.
Second definition for the refinement comparison with `acquireStep`. -/
def specTTASStep (pc : AcquirePC) (flag : Bool) : AcqResult :=
  match pc with
  | .tryCAS => if flag = false then .acquired else .continueAt .spinRead
  | .spinRead => if flag = false then .continueAt .tryCAS else .continueAt .spinRead

/-- Spec wording: compare-and-swap with acquire-ordering on success. -/
def specCasSuccessOrder : MemOrder := .acqOrd

/-- Spec wording: relaxed ordering on compare-and-swap failure. -/
def specCasFailureOrder : MemOrder := .relaxed

/-- Spec wording: the spin loads the flag with relaxed ordering. -/
def specSpinLoadOrder : MemOrder := .relaxed

/-- Spec wording: a CPU spin-wait hint executes on each spin iteration. -/
def specSpinHint : Bool := true

/-- Ghost-instrumented state of one `SpinLock` instance: the lock's fields
plus the number of currently live `SpinLockGuard` values for it. -/
structure SysState (T : Type) where
  lock : SpinLock T
  guards : Nat
deriving DecidableEq, Repr

/-- Atomic events of the spinlock protocol, interleaved across any number of
contexts running `acquire` and dropping guards:
- `casOk`: the `compare_exchange` of line 58 succeeds (flag was `false`),
  setting the flag and returning a new guard (line 64);
- `casFail`: the `compare_exchange` fails (flag was `true`), leaving the
  state unchanged;
- `spinLoad`: the relaxed load of line 59, a read with no state change;
- `dropGuard`: a live guard's `Drop` (lines 87-91) runs `release` (line 68),
  storing `false` into the flag, and the guard ceases to exist. -/
inductive Step {T : Type} : SysState T → SysState T → Prop
  | casOk (s : SysState T) : s.lock.flag = false →
      Step s ⟨⟨true, s.lock.data⟩, s.guards + 1⟩
  | casFail (s : SysState T) : s.lock.flag = true → Step s s
  | spinLoad (s : SysState T) : Step s s
  | dropGuard (s : SysState T) : 0 < s.guards →
      Step s ⟨⟨false, s.lock.data⟩, s.guards - 1⟩

/-- Initial state: a freshly constructed lock with no live guard. -/
def initState (item : T) : SysState T :=
  ⟨SpinLock.new item, 0⟩

/-- Reachability of a system state from a fresh lock under protocol events. -/
def Reach (item : T) (s : SysState T) : Prop :=
  Relation.ReflTransGen Step (initState item) s

/-- Claim C1: in every state reachable from a fresh lock under any
interleaving of acquire attempts and guard drops, at most one live guard
exists, and the flag is Locked exactly when a guard is live. -/
theorem mutual_exclusion {T : Type} (item : T) (s : SysState T) (h : Reach item s) :
    s.guards ≤ 1 ∧ (s.lock.flag = true ↔ s.guards = 1) := by
  induction h with
  | refl => exact ⟨Nat.zero_le 1, by simp [initState, SpinLock.new]⟩
  | @tail b c hr hstep ih =>
    obtain ⟨hle, hiff⟩ := ih
    cases hstep with
    | casOk hf =>
      have hg : b.guards = 0 := by
        rcases Nat.eq_or_lt_of_le hle with h1 | h1
        · exact absurd (hiff.mpr h1) (by simp [hf])
        · omega
      refine ⟨?_, ?_⟩
      · show b.guards + 1 ≤ 1
        omega
      · show true = true ↔ b.guards + 1 = 1
        simp [hg]
    | casFail hf => exact ⟨hle, hiff⟩
    | spinLoad => exact ⟨hle, hiff⟩
    | dropGuard hg =>
      have h1 : b.guards = 1 := by omega
      refine ⟨?_, ?_⟩
      · show b.guards - 1 ≤ 1
        omega
      · show false = true ↔ b.guards - 1 = 1
        simp [h1]

/-- Witness for C1: the state reached by one successful compare-and-swap from
a fresh lock satisfies the invariant. -/
theorem mutual_exclusion_witness :
    Reach (0 : Nat) ⟨⟨true, 0⟩, 1⟩ ∧
      ((⟨⟨true, 0⟩, 1⟩ : SysState Nat).guards ≤ 1 ∧
        ((⟨⟨true, 0⟩, 1⟩ : SysState Nat).lock.flag = true ↔
          (⟨⟨true, 0⟩, 1⟩ : SysState Nat).guards = 1)) :=
  ⟨Relation.ReflTransGen.single (Step.casOk (initState 0) rfl),
    mutual_exclusion 0 ⟨⟨true, 0⟩, 1⟩
      (Relation.ReflTransGen.single (Step.casOk (initState 0) rfl))⟩

/-- Counterexample to C2 as stated: `SpinLock::release` is declared `pub`
(line 67), hence accessible to callers outside the module; a direct call on
a Locked lock flips the flag to Unlocked without any guard teardown. -/
theorem release_pub_counterexample :
    releaseVisInSource ≠ RustVis.visPrivate ∧
      SpinLock.release ⟨true, (37 : Nat)⟩ = ⟨false, 37⟩ := by
  decide

/-- Claim C2 (amended): under the protocol events, the flag changes in
exactly two ways — Unlocked to Locked only by a successful compare-and-swap
that creates a guard, and Locked to Unlocked only by the release run by a
live guard's teardown; however `release` itself is `pub`, so guard-only
invocation is a caller-discipline contract rather than enforced by
visibility. -/
theorem flag_transition_characterization {T : Type} (s t : SysState T)
    (hstep : Step s t) (hch : s.lock.flag ≠ t.lock.flag) :
    (s.lock.flag = false ∧ t.lock.flag = true ∧ t.guards = s.guards + 1) ∨
      (s.lock.flag = true ∧ t.lock.flag = false ∧ 0 < s.guards ∧
        t.guards = s.guards - 1) := by
  cases hstep with
  | casOk hf => exact Or.inl ⟨hf, rfl, rfl⟩
  | casFail hf => exact absurd rfl hch
  | spinLoad => exact absurd rfl hch
  | dropGuard hg =>
    refine Or.inr ⟨?_, rfl, hg, rfl⟩
    cases hf : s.lock.flag with
    | true => rfl
    | false => exact absurd hf hch

/-- Witness for the amended C2: the successful compare-and-swap step from a
fresh lock is a flag change of the first kind. -/
theorem flag_transition_characterization_witness :
    Step (initState (0 : Nat)) ⟨⟨true, 0⟩, 1⟩ ∧
      (((initState (0 : Nat)).lock.flag = false ∧
          (⟨⟨true, 0⟩, 1⟩ : SysState Nat).lock.flag = true ∧
          (⟨⟨true, 0⟩, 1⟩ : SysState Nat).guards = (initState (0 : Nat)).guards + 1) ∨
        ((initState (0 : Nat)).lock.flag = true ∧
          (⟨⟨true, 0⟩, 1⟩ : SysState Nat).lock.flag = false ∧
          0 < (initState (0 : Nat)).guards ∧
          (⟨⟨true, 0⟩, 1⟩ : SysState Nat).guards = (initState (0 : Nat)).guards - 1)) :=
  ⟨Step.casOk (initState 0) rfl,
    flag_transition_characterization (initState 0) ⟨⟨true, 0⟩, 1⟩
      (Step.casOk (initState 0) rfl) (by decide)⟩

/-- Claim C3: `acquire` is exactly the test-and-test-and-set algorithm of the
spec — same step behaviour at both control points, acquire-ordering on
compare-and-swap success, relaxed ordering on its failure, relaxed ordering
on the read-only spin load, and a spin-wait hint on each spin iteration. -/
theorem acquire_matches_spec_ttas :
    (∀ pc flag, acquireStep pc flag = specTTASStep pc flag) ∧
      casSuccessOrder = specCasSuccessOrder ∧
      casFailureOrder = specCasFailureOrder ∧
      spinLoadOrder = specSpinLoadOrder ∧
      spinLoopHint = specSpinHint := by
  refine ⟨?_, rfl, rfl, rfl, rfl⟩
  intro pc flag
  cases pc <;> cases flag <;> rfl

/-- Claim C4: from any state with a live guard, the guard's teardown is a
protocol step whose body is exactly one release, it leaves the flag
Unlocked, and from the resulting state a subsequent acquire succeeds on its
compare-and-swap, creating a new guard. -/
theorem release_on_exit {T : Type} (s : SysState T) (h : 0 < s.guards) :
    Step s ⟨⟨false, s.lock.data⟩, s.guards - 1⟩ ∧
      dropBody = [LockOp.callRelease] ∧
      (SpinLock.release s.lock).flag = false ∧
      acquireStep AcquirePC.tryCAS false = AcqResult.acquired ∧
      Step (⟨⟨false, s.lock.data⟩, s.guards - 1⟩ : SysState T)
        ⟨⟨true, s.lock.data⟩, (s.guards - 1) + 1⟩ :=
  ⟨Step.dropGuard s h, rfl, rfl, rfl,
    Step.casOk ⟨⟨false, s.lock.data⟩, s.guards - 1⟩ rfl⟩

/-- Witness for C4 at a locked state holding one guard around the value 5. -/
theorem release_on_exit_witness :
    0 < (⟨⟨true, 5⟩, 1⟩ : SysState Nat).guards ∧
      (Step (⟨⟨true, 5⟩, 1⟩ : SysState Nat) ⟨⟨false, 5⟩, 0⟩ ∧
        dropBody = [LockOp.callRelease] ∧
        (SpinLock.release (⟨true, 5⟩ : SpinLock Nat)).flag = false ∧
        acquireStep AcquirePC.tryCAS false = AcqResult.acquired ∧
        Step (⟨⟨false, 5⟩, 0⟩ : SysState Nat) ⟨⟨true, 5⟩, 1⟩) :=
  ⟨by decide, release_on_exit ⟨⟨true, 5⟩, 1⟩ (by decide)⟩

/-- Claim C5: while the flag reads Locked at every atomic access (the guard
stays alive and no release happens), a context running `acquire` never
finishes, whatever control point it is at and however many accesses it
makes. -/
theorem non_reentrancy (flags : List Bool) (pc : AcquirePC)
    (h : ∀ f ∈ flags, f = true) : acquireRun pc flags ≠ AcqRun.got := by
  induction flags generalizing pc with
  | nil => cases pc <;> simp [acquireRun]
  | cons f rest ih =>
    have hf : f = true := h f (by simp)
    subst hf
    have hrest : ∀ g ∈ rest, g = true := fun g hg => h g (by simp [hg])
    cases pc <;>
      simpa [acquireRun, acquireStep] using ih AcquirePC.spinRead hrest

/-- Witness for C5: three consecutive accesses all observing Locked leave the
acquiring context still spinning. -/
theorem non_reentrancy_witness :
    (∀ f ∈ [true, true, true], f = true) ∧
      acquireRun AcquirePC.tryCAS [true, true, true] ≠ AcqRun.got :=
  ⟨by decide, non_reentrancy [true, true, true] AcquirePC.tryCAS (by decide)⟩

/-- Claim C6: `new item` has the flag Unlocked and stores `item` as the
payload, and the first acquire on the fresh lock succeeds on its very first
compare-and-swap — one access, no spin iteration. -/
theorem fresh_lock_liveness {T : Type} (item : T) :
    (SpinLock.new item).flag = false ∧
      (SpinLock.new item).data = item ∧
      acquireStep AcquirePC.tryCAS (SpinLock.new item).flag = AcqResult.acquired ∧
      acquireRun AcquirePC.tryCAS [(SpinLock.new item).flag] = AcqRun.got :=
  ⟨rfl, rfl, rfl, rfl⟩

/-- Kinds of memory access, with the ordering annotation for atomics;
`naRead`/`naWrite` are the plain non-atomic accesses made through a guard
inside a critical section. -/
inductive MemAccess
  | naRead
  | naWrite
  | atomicLoad (ord : MemOrder)
  | atomicStore (ord : MemOrder)
  | atomicRMW (ord : MemOrder)
deriving DecidableEq, Repr

/-- A memory event: issuing context, position in that context's program
order, kind of access, and location. -/
structure MemEvent where
  tid : Nat
  seq : Nat
  acc : MemAccess
  loc : Nat
deriving DecidableEq, Repr

/-- Whether an access is a write with release-or-stronger ordering. -/
def isReleaseWrite : MemAccess → Bool
  | .atomicStore o => o == .relOrd || o == .acqRelOrd || o == .seqCst
  | .atomicRMW o => o == .relOrd || o == .acqRelOrd || o == .seqCst
  | _ => false

/-- Whether an access is a read with acquire-or-stronger ordering. -/
def isAcquireRead : MemAccess → Bool
  | .atomicLoad o => o == .acqOrd || o == .acqRelOrd || o == .seqCst
  | .atomicRMW o => o == .acqOrd || o == .acqRelOrd || o == .seqCst
  | _ => false

/-- Happens-before of the release-acquire fragment of the C11/Rust memory
model, over a given reads-from relation: program order within a context, the
synchronizes-with edge from a release-ordered write to an acquire-ordered
read of the same location that reads from it, and transitivity. -/
inductive HappensBefore (rf : MemEvent → MemEvent → Prop) : MemEvent → MemEvent → Prop
  | po (a b : MemEvent) : a.tid = b.tid → a.seq < b.seq → HappensBefore rf a b
  | sw (a b : MemEvent) : rf a b → isReleaseWrite a.acc = true →
      isAcquireRead b.acc = true → a.loc = b.loc → HappensBefore rf a b
  | trans (a b c : MemEvent) : HappensBefore rf a b → HappensBefore rf b c →
      HappensBefore rf a c

/-- Location of the lock's flag in the handoff execution. -/
def flagLoc : Nat := 0

/-- Location of the lock's data cell in the handoff execution. -/
def dataLoc : Nat := 1

/-- The release store of the first holder's guard teardown (line 68), with
the ordering the source gives it. -/
def relStoreEv : MemEvent := ⟨1, 1, .atomicStore releaseStoreOrder, flagLoc⟩

/-- The next acquirer's successful compare-and-swap (line 58), with the
ordering the source gives its success. -/
def acqCASEv : MemEvent := ⟨2, 0, .atomicRMW casSuccessOrder, flagLoc⟩

/-- Reads-from of the handoff execution: the next acquirer's successful
compare-and-swap reads the flag value written by the holder's release
store. -/
def handoffRF (a b : MemEvent) : Prop := a = relStoreEv ∧ b = acqCASEv

/-- A write the first holder performs inside its critical section. -/
def csWriteEv : MemEvent := ⟨1, 0, .naWrite, dataLoc⟩

/-- A read the next acquirer performs inside its critical section. -/
def csReadEv : MemEvent := ⟨2, 1, .naRead, dataLoc⟩

/-- Claim C7: any write the holder performs before its guard's release store,
and any access the next acquirer performs after its successful
compare-and-swap, are related by happens-before — using only the lock's own
release-ordered store and acquire-ordered compare-and-swap, so every
critical-section write is visible to the next acquirer. -/
theorem cross_context_visibility (w r : MemEvent)
    (hw1 : w.tid = relStoreEv.tid) (hw2 : w.seq < relStoreEv.seq)
    (hr1 : r.tid = acqCASEv.tid) (hr2 : acqCASEv.seq < r.seq) :
    HappensBefore handoffRF w r :=
  HappensBefore.trans w acqCASEv r
    (HappensBefore.trans w relStoreEv acqCASEv
      (HappensBefore.po w relStoreEv hw1 hw2)
      (HappensBefore.sw relStoreEv acqCASEv ⟨rfl, rfl⟩ (by decide) (by decide) rfl))
    (HappensBefore.po acqCASEv r hr1.symm hr2)

/-- Witness for C7: the holder's critical-section write happens-before the
next acquirer's critical-section read. -/
theorem cross_context_visibility_witness :
    (csWriteEv.tid = relStoreEv.tid ∧ csWriteEv.seq < relStoreEv.seq ∧
        csReadEv.tid = acqCASEv.tid ∧ acqCASEv.seq < csReadEv.seq) ∧
      HappensBefore handoffRF csWriteEv csReadEv :=
  ⟨by decide,
    cross_context_visibility csWriteEv csReadEv (by decide) (by decide)
      (by decide) (by decide)⟩

/-- Claim C8: dereferencing a guard returns exactly the value stored in its
lock's data cell, and writing through its mutable dereference updates exactly
that cell — the flag is unchanged and a subsequent read through the guard
sees the written value. -/
theorem guard_transparency {T : Type} (l : SpinLock T) (v : T) :
    SpinLockGuard.deref l = l.data ∧
      (SpinLockGuard.derefMutWrite l v).data = v ∧
      (SpinLockGuard.derefMutWrite l v).flag = l.flag ∧
      SpinLockGuard.deref (SpinLockGuard.derefMutWrite l v) = v :=
  ⟨rfl, rfl, rfl, rfl⟩

/-- Claim C9: `release` stores Unlocked whatever the current state, never
touches the data, and is idempotent. -/
theorem release_unconditional_idempotent {T : Type} (l : SpinLock T) :
    (SpinLock.release l).flag = false ∧
      (SpinLock.release l).data = l.data ∧
      SpinLock.release (SpinLock.release l) = SpinLock.release l :=
  ⟨rfl, rfl, rfl⟩

/-- Claim C10: every protocol event (the compare-and-swap and spin load of
acquire, and release) leaves the protected value unchanged; release's effect
on the flag is independent of the stored value; and the only modelled
operation that mutates the data cell is a write through the guard's mutable
dereference, which in turn leaves the flag unchanged. -/
theorem frame_property {T : Type} (s t : SysState T) (hstep : Step s t)
    (l : SpinLock T) (v : T) :
    t.lock.data = s.lock.data ∧
      (SpinLock.release l).data = l.data ∧
      (SpinLock.release ⟨l.flag, v⟩).flag = (SpinLock.release l).flag ∧
      (SpinLockGuard.derefMutWrite l v).flag = l.flag ∧
      (SpinLockGuard.derefMutWrite l v).data = v := by
  cases hstep <;> exact ⟨rfl, rfl, rfl, rfl, rfl⟩

/-- Witness for C10 at a spin-load event on a fresh lock around 5, with a
direct write of 7 through a guard of a lock around 5. -/
theorem frame_property_witness :
    Step (initState (5 : Nat)) (initState 5) ∧
      ((initState (5 : Nat)).lock.data = (initState (5 : Nat)).lock.data ∧
        (SpinLock.release (⟨false, 5⟩ : SpinLock Nat)).data = (⟨false, (5 : Nat)⟩ : SpinLock Nat).data ∧
        (SpinLock.release (⟨(⟨false, (5 : Nat)⟩ : SpinLock Nat).flag, 7⟩ : SpinLock Nat)).flag =
          (SpinLock.release (⟨false, 5⟩ : SpinLock Nat)).flag ∧
        (SpinLockGuard.derefMutWrite (⟨false, 5⟩ : SpinLock Nat) 7).flag =
          (⟨false, (5 : Nat)⟩ : SpinLock Nat).flag ∧
        (SpinLockGuard.derefMutWrite (⟨false, 5⟩ : SpinLock Nat) 7).data = 7) :=
  ⟨Step.spinLoad (initState 5),
    frame_property (initState 5) (initState 5) (Step.spinLoad (initState 5))
      ⟨false, 5⟩ 7⟩
